import Mathlib

/-!
Verification of the admission-control / anti-Sybil layer of the agentme
node (`src/node/src/network/security.rs`).

Modelling conventions:
* `Instant` and `Duration` become nanosecond counts (`Nat`); the monotone
  clock is an explicit `now : Nat` parameter and `Instant::elapsed` is
  truncated subtraction `now - t`.
* `HashMap` becomes a function into `Option`, `HashSet` a `Finset`,
  `Vec<Instant>` a `List Nat` (push appends, retain filters in order).
* Machine-integer saturation and truncation are explicit: `u64::saturating_pow`
  is `min _ u64MAX`, `u32::saturating_add` is `min _ u32MAX`, the Rust cast
  `as u32` is `% 2 ^ 32`, `Duration::saturating_mul` is `min _ durationMAX`.
* Fallible operations (`Result<()>`) return a `Bool` alongside the new
  state: `true` stands for `Ok(())`, `false` for `Err(..)`.
-/

namespace Security

/-- An IP address: IPv4 as its four octets, IPv6 as its list of 16-bit
groups. -/
inductive IpAddr where
  | v4 (o0 o1 o2 o3 : Nat)
  | v6 (groups : List Nat)
deriving DecidableEq

/-- Largest `u32` value. -/
def u32MAX : Nat := 2 ^ 32 - 1

/-- Largest `u64` value. -/
def u64MAX : Nat := 2 ^ 64 - 1

/-- `Duration::MAX` in nanoseconds: `u64::MAX` seconds plus `999_999_999`
nanoseconds. -/
def durationMAX : Nat := u64MAX * 1000000000 + 999999999

/-- Pointwise update of a map modelled as a function into `Option`. -/
def updMap {κ β : Type} [DecidableEq κ] (m : κ → Option β) (k : κ) (v : Option β) :
    κ → Option β :=
  fun k' => if k' = k then v else m k'

/-- `MAX_PEERS_PER_SUBNET_24` in the source. -/
def MAX_PEERS_PER_SUBNET_24 : Nat := 5

/-- `MAX_PEERS_PER_SUBNET_16` in the source. -/
def MAX_PEERS_PER_SUBNET_16 : Nat := 3

/-- `MIN_BOOTSTRAP_PEERS` in the source. -/
def MIN_BOOTSTRAP_PEERS : Nat := 3

/-- Common shape of `SubnetTracker` (keys: first three octets) and
`Subnet16Tracker` (keys: first two octets): a map from subnet prefix to
connection count plus the per-subnet limit.  The two Rust structs are
byte-for-byte the same code up to the key type, so they are embedded once,
generically in the key type `κ`. -/
structure Tracker (κ : Type) where
  connections : κ → Option Nat
  max_per_subnet : Nat

/-- `SubnetTracker`: keys are /24 prefixes (first three octets). -/
abbrev SubnetTracker := Tracker (Nat × Nat × Nat)

/-- `Subnet16Tracker`: keys are /16 prefixes (first two octets). -/
abbrev Subnet16Tracker := Tracker (Nat × Nat)

/-- `SubnetTracker::extract_subnet_24`: the first three octets for IPv4,
`None` for IPv6. -/
def SubnetTracker.extract_subnet_24 : IpAddr → Option (Nat × Nat × Nat)
  | .v4 a b c _ => some (a, b, c)
  | .v6 _ => none

/-- `SubnetTracker::extract_subnet_16`: the first two octets for IPv4,
`None` for IPv6. -/
def SubnetTracker.extract_subnet_16 : IpAddr → Option (Nat × Nat)
  | .v4 a b _ _ => some (a, b)
  | .v6 _ => none

/-- Generic form of `can_accept_connection` for both subnet trackers. -/
def Tracker.can_accept_connection {κ : Type} [DecidableEq κ]
    (extract : IpAddr → Option κ) (t : Tracker κ) (ip : IpAddr) : Bool :=
  match extract ip with
  | some subnet => decide ((t.connections subnet).getD 0 < t.max_per_subnet)
  | none => true

/-- Generic form of `add_connection` for both subnet trackers.  The Rust
code first materialises the entry with `entry(subnet).or_insert(0)` and
only then checks the limit, so on the error path the (possibly fresh,
zero-count) entry stays in the map. -/
def Tracker.add_connection {κ : Type} [DecidableEq κ]
    (extract : IpAddr → Option κ) (t : Tracker κ) (ip : IpAddr) :
    Tracker κ × Bool :=
  match extract ip with
  | some subnet =>
    let current := (t.connections subnet).getD 0
    if current ≥ t.max_per_subnet then
      ({ t with connections := updMap t.connections subnet (some current) }, false)
    else
      ({ t with connections := updMap t.connections subnet (some (current + 1)) }, true)
  | none => (t, true)

/-- Generic form of `remove_connection`: saturating decrement, deleting
the entry when the count reaches zero. -/
def Tracker.remove_connection {κ : Type} [DecidableEq κ]
    (extract : IpAddr → Option κ) (t : Tracker κ) (ip : IpAddr) : Tracker κ :=
  match extract ip with
  | some subnet =>
    match t.connections subnet with
    | some count =>
      if count - 1 = 0 then { t with connections := updMap t.connections subnet none }
      else { t with connections := updMap t.connections subnet (some (count - 1)) }
    | none => t
  | none => t

/-- Generic form of `connection_count`. -/
def Tracker.connection_count {κ : Type} [DecidableEq κ]
    (extract : IpAddr → Option κ) (t : Tracker κ) (ip : IpAddr) : Nat :=
  match extract ip with
  | some subnet => (t.connections subnet).getD 0
  | none => 0

/-- `SubnetTracker::with_limit`. -/
def SubnetTracker.with_limit (m : Nat) : SubnetTracker :=
  { connections := fun _ => none, max_per_subnet := m }

/-- `SubnetTracker::new`. -/
def SubnetTracker.new : SubnetTracker :=
  SubnetTracker.with_limit MAX_PEERS_PER_SUBNET_24

/-- `SubnetTracker::can_accept_connection`. -/
def SubnetTracker.can_accept_connection (t : SubnetTracker) (ip : IpAddr) : Bool :=
  Tracker.can_accept_connection SubnetTracker.extract_subnet_24 t ip

/-- `SubnetTracker::add_connection`. -/
def SubnetTracker.add_connection (t : SubnetTracker) (ip : IpAddr) :
    SubnetTracker × Bool :=
  Tracker.add_connection SubnetTracker.extract_subnet_24 t ip

/-- `SubnetTracker::remove_connection`. -/
def SubnetTracker.remove_connection (t : SubnetTracker) (ip : IpAddr) : SubnetTracker :=
  Tracker.remove_connection SubnetTracker.extract_subnet_24 t ip

/-- `Subnet16Tracker::with_limit`. -/
def Subnet16Tracker.with_limit (m : Nat) : Subnet16Tracker :=
  { connections := fun _ => none, max_per_subnet := m }

/-- `Subnet16Tracker::new`. -/
def Subnet16Tracker.new : Subnet16Tracker :=
  Subnet16Tracker.with_limit MAX_PEERS_PER_SUBNET_16

/-- `Subnet16Tracker::can_accept_connection` (keyed by
`SubnetTracker::extract_subnet_16`, as in the source). -/
def Subnet16Tracker.can_accept_connection (t : Subnet16Tracker) (ip : IpAddr) : Bool :=
  Tracker.can_accept_connection SubnetTracker.extract_subnet_16 t ip

/-- `Subnet16Tracker::add_connection`. -/
def Subnet16Tracker.add_connection (t : Subnet16Tracker) (ip : IpAddr) :
    Subnet16Tracker × Bool :=
  Tracker.add_connection SubnetTracker.extract_subnet_16 t ip

/-- `Subnet16Tracker::remove_connection`. -/
def Subnet16Tracker.remove_connection (t : Subnet16Tracker) (ip : IpAddr) : Subnet16Tracker :=
  Tracker.remove_connection SubnetTracker.extract_subnet_16 t ip

/-- `ConnectionRateLimiter`: per-IP map from IP to
(last-attempt instant, failure count), plus the backoff parameters. -/
structure ConnectionRateLimiter where
  attempts : IpAddr → Option (Nat × Nat)
  base_delay : Nat
  max_delay : Nat
  max_failures : Nat

/-- `ConnectionRateLimiter::with_config`. -/
def ConnectionRateLimiter.with_config (b m f : Nat) : ConnectionRateLimiter :=
  { attempts := fun _ => none, base_delay := b, max_delay := m, max_failures := f }

/-- `ConnectionRateLimiter::new`: 1 s base delay, 300 s max delay,
10 max failures. -/
def ConnectionRateLimiter.new : ConnectionRateLimiter :=
  ConnectionRateLimiter.with_config 1000000000 300000000000 10

/-- `ConnectionRateLimiter::calculate_delay`, faithfully including the
integer conversions: `2u64.saturating_pow(failures - 1)` saturates at
`u64::MAX`, the result is then cast with `as u32` (truncation modulo
`2 ^ 32`), multiplied with `Duration::saturating_mul`, and capped at
`max_delay`. -/
def ConnectionRateLimiter.calculate_delay (rl : ConnectionRateLimiter)
    (failures : Nat) : Nat :=
  if failures = 0 then 0
  else
    let multiplier := min (2 ^ (failures - 1)) u64MAX
    let multiplier32 := multiplier % 2 ^ 32
    let delay := min (rl.base_delay * multiplier32) durationMAX
    min delay rl.max_delay

/-- `ConnectionRateLimiter::can_attempt`. -/
def ConnectionRateLimiter.can_attempt (rl : ConnectionRateLimiter)
    (now : Nat) (ip : IpAddr) : Bool :=
  match rl.attempts ip with
  | some lf =>
    if lf.2 ≥ rl.max_failures then false
    else decide (now - lf.1 ≥ rl.calculate_delay lf.2)
  | none => true

/-- `ConnectionRateLimiter::time_until_allowed`. -/
def ConnectionRateLimiter.time_until_allowed (rl : ConnectionRateLimiter)
    (now : Nat) (ip : IpAddr) : Nat :=
  match rl.attempts ip with
  | some lf =>
    if lf.2 ≥ rl.max_failures then durationMAX
    else
      let required := rl.calculate_delay lf.2
      let elapsed := now - lf.1
      if elapsed ≥ required then 0 else required - elapsed
  | none => 0

/-- `ConnectionRateLimiter::record_attempt`: stamps the timestamp, keeps
the failure count (0 for a fresh entry). -/
def ConnectionRateLimiter.record_attempt (rl : ConnectionRateLimiter)
    (now : Nat) (ip : IpAddr) : ConnectionRateLimiter :=
  match rl.attempts ip with
  | some lf => { rl with attempts := updMap rl.attempts ip (some (now, lf.2)) }
  | none => { rl with attempts := updMap rl.attempts ip (some (now, 0)) }

/-- `ConnectionRateLimiter::record_failure`: stamps the timestamp and
increments the failure count with `u32::saturating_add`. -/
def ConnectionRateLimiter.record_failure (rl : ConnectionRateLimiter)
    (now : Nat) (ip : IpAddr) : ConnectionRateLimiter :=
  match rl.attempts ip with
  | some lf => { rl with attempts := updMap rl.attempts ip (some (now, min (lf.2 + 1) u32MAX)) }
  | none => { rl with attempts := updMap rl.attempts ip (some (now, min (0 + 1) u32MAX)) }

/-- `ConnectionRateLimiter::record_success`: deletes the entry. -/
def ConnectionRateLimiter.record_success (rl : ConnectionRateLimiter)
    (ip : IpAddr) : ConnectionRateLimiter :=
  { rl with attempts := updMap rl.attempts ip none }

/-- `ConnectionRateLimiter::failure_count`. -/
def ConnectionRateLimiter.failure_count (rl : ConnectionRateLimiter)
    (ip : IpAddr) : Nat :=
  match rl.attempts ip with
  | some lf => lf.2
  | none => 0

/-- `ConnectionRateLimiter::cleanup`: retains exactly the entries whose
elapsed time since the last attempt is strictly below `max_age`. -/
def ConnectionRateLimiter.cleanup (rl : ConnectionRateLimiter)
    (now max_age : Nat) : ConnectionRateLimiter :=
  { rl with attempts := fun ip =>
      match rl.attempts ip with
      | some lf => if now - lf.1 < max_age then some lf else none
      | none => none }

/-- `GlobalConnectionRateLimiter`: sliding-window admission limiter. -/
structure GlobalConnectionRateLimiter where
  connection_times : List Nat
  max_per_window : Nat
  window_duration : Nat

/-- `GlobalConnectionRateLimiter::with_window`. -/
def GlobalConnectionRateLimiter.with_window (cap w : Nat) :
    GlobalConnectionRateLimiter :=
  { connection_times := [], max_per_window := cap, window_duration := w }

/-- `GlobalConnectionRateLimiter::cleanup_expired`: retains timestamps
within the window. -/
def GlobalConnectionRateLimiter.cleanup_expired (g : GlobalConnectionRateLimiter)
    (now : Nat) : GlobalConnectionRateLimiter :=
  { g with connection_times :=
      g.connection_times.filter (fun t => decide (now - t < g.window_duration)) }

/-- `GlobalConnectionRateLimiter::can_accept_new_connection`. -/
def GlobalConnectionRateLimiter.can_accept_new_connection
    (g : GlobalConnectionRateLimiter) (now : Nat) : Bool :=
  decide ((g.connection_times.filter
    (fun t => decide (now - t < g.window_duration))).length < g.max_per_window)

/-- `GlobalConnectionRateLimiter::record_new_connection`: prune, then
reject if the surviving count has reached the cap, else append `now`. -/
def GlobalConnectionRateLimiter.record_new_connection
    (g : GlobalConnectionRateLimiter) (now : Nat) :
    GlobalConnectionRateLimiter × Bool :=
  let g1 := g.cleanup_expired now
  if g1.connection_times.length ≥ g1.max_per_window then (g1, false)
  else ({ g1 with connection_times := g1.connection_times ++ [now] }, true)

/-- The timestamps at which the calls of a trace of
`record_new_connection` invocations (at the given instants) are admitted. -/
def grlSuccessTimes (g : GlobalConnectionRateLimiter) : List Nat → List Nat
  | [] => []
  | t :: ts =>
    let r := g.record_new_connection t
    if r.2 then t :: grlSuccessTimes r.1 ts else grlSuccessTimes r.1 ts

/-- `ConnectionTracker`: a set of connected IPs plus the hard ceiling. -/
structure ConnectionTracker where
  connections : Finset IpAddr
  max_connections : Nat

/-- `ConnectionTracker::new`. -/
def ConnectionTracker.new (m : Nat) : ConnectionTracker :=
  { connections := ∅, max_connections := m }

/-- `ConnectionTracker::can_accept_connection`. -/
def ConnectionTracker.can_accept_connection (t : ConnectionTracker) : Bool :=
  decide (t.connections.card < t.max_connections)

/-- `ConnectionTracker::add_connection`: idempotent success on an already
tracked IP, error at the ceiling, insert otherwise. -/
def ConnectionTracker.add_connection (t : ConnectionTracker) (ip : IpAddr) :
    ConnectionTracker × Bool :=
  if ip ∈ t.connections then (t, true)
  else if t.connections.card ≥ t.max_connections then (t, false)
  else ({ t with connections := insert ip t.connections }, true)

/-- `ConnectionTracker::remove_connection`. -/
def ConnectionTracker.remove_connection (t : ConnectionTracker) (ip : IpAddr) :
    ConnectionTracker :=
  { t with connections := t.connections.erase ip }

/-- `ConnectionTracker::has_connection`. -/
def ConnectionTracker.has_connection (t : ConnectionTracker) (ip : IpAddr) : Bool :=
  decide (ip ∈ t.connections)

/-- `ConnectionTracker::current_count`. -/
def ConnectionTracker.current_count (t : ConnectionTracker) : Nat :=
  t.connections.card

/-- One externally driven call on a `ConnectionTracker`. -/
inductive CtOp where
  | add (ip : IpAddr)
  | remove (ip : IpAddr)

/-- Apply one call. -/
def ConnectionTracker.applyOp (t : ConnectionTracker) : CtOp → ConnectionTracker
  | .add ip => (t.add_connection ip).1
  | .remove ip => t.remove_connection ip

/-- Apply a sequence of calls. -/
def ConnectionTracker.runOps (t : ConnectionTracker) (ops : List CtOp) :
    ConnectionTracker :=
  ops.foldl ConnectionTracker.applyOp t

/-- Split a character list at every occurrence of `sep`, keeping empty
segments, like Rust `str::split` with a `char` pattern. -/
def splitOnChar (sep : Char) : List Char → List (List Char)
  | [] => [[]]
  | c :: rest =>
    match splitOnChar sep rest with
    | [] => if c = sep then [[], []] else [[c]]
    | g :: gs => if c = sep then [] :: g :: gs else (c :: g) :: gs

/-- `char::to_digit(radix)` for the radices used by the IP parser. -/
def toDigit (radix : Nat) (c : Char) : Option Nat :=
  if c.isDigit then
    if c.toNat - 48 < radix then some (c.toNat - 48) else none
  else if 16 ≤ radix ∧ ('a') ≤ c ∧ c ≤ ('f') then some (c.toNat - 87)
  else if 16 ≤ radix ∧ ('A') ≤ c ∧ c ≤ ('F') then some (c.toNat - 55)
  else none

/-- The digit-consuming loop of `Parser::read_number`: the longest prefix
of digits of the given radix, as digit values, with the rest of the
stream. -/
def spanDigits (radix : Nat) : List Char → List Nat × List Char
  | [] => ([], [])
  | c :: rest =>
    match toDigit radix c with
    | some d =>
      let r := spanDigits radix rest
      (d :: r.1, r.2)
    | none => ([], c :: rest)

/-- `Parser::read_given_char`: consume exactly the expected character. -/
def read_given_char (c : Char) : List Char → Option (List Char)
  | c2 :: rest => if c2 = c then some rest else none
  | [] => none

/-- `Parser::read_number`: consume all consecutive digits of the radix;
fail on no digits, on more than `max_digits` digits, on a forbidden
leading zero, and past `maxVal` (the checked `u8` / `u16` arithmetic,
which for at most 3 decimal or 4 hexadecimal digits is equivalent to the
final-value bound). -/
def read_number (radix max_digits : Nat) (allow_zero : Bool) (maxVal : Nat)
    (cs : List Char) : Option (Nat × List Char) :=
  let ds := spanDigits radix cs
  if ds.1.isEmpty then none
  else if max_digits < ds.1.length then none
  else if allow_zero = false ∧ ds.1.head? = some 0 ∧ 1 < ds.1.length then none
  else
    let v := ds.1.foldl (fun n d => n * radix + d) 0
    if v ≤ maxVal then some (v, ds.2) else none

/-- `Parser::read_ipv4_addr`: four dot-separated octets (one to three
decimal digits, no leading zero, at most 255) read off the stream; no
end-of-input requirement here. -/
def read_ipv4_addr (cs : List Char) : Option ((Nat × Nat × Nat × Nat) × List Char) := do
  let r1 ← read_number 10 3 false 255 cs
  let s1 ← read_given_char ('.') r1.2
  let r2 ← read_number 10 3 false 255 s1
  let s2 ← read_given_char ('.') r2.2
  let r3 ← read_number 10 3 false 255 s2
  let s3 ← read_given_char ('.') r3.2
  let r4 ← read_number 10 3 false 255 s3
  some ((r1.1, r2.1, r3.1, r4.1), r4.2)

/-- The `read_groups` loop of `Parser::read_ipv6_addr`: read up to `limit`
colon-separated 16-bit hexadecimal groups; while at least two slots
remain, first try a trailing embedded IPv4 address (contributing two
groups and ending the loop).  `first` is true at the first slot, where no
leading colon is consumed.  Returns the groups read, whether they ended in
an embedded IPv4 address, and the rest of the stream; a failed attempt
consumes nothing (Rust's `read_atomically`). -/
def read_groups (first : Bool) : Nat → List Char → List Nat × Bool × List Char
  | 0, cs => ([], false, cs)
  | limit + 1, cs =>
    let sep : Option (List Char) := if first then some cs else read_given_char (':') cs
    let v4 : Option ((Nat × Nat × Nat × Nat) × List Char) :=
      if 1 ≤ limit then sep.bind read_ipv4_addr else none
    match v4 with
    | some (q, rest) => ([q.1 * 256 + q.2.1, q.2.2.1 * 256 + q.2.2.2], true, rest)
    | none =>
      match sep.bind (read_number 16 4 true 65535) with
      | some (g, rest) =>
        let r := read_groups false limit rest
        (g :: r.1, r.2.1, r.2.2)
      | none => ([], false, cs)

/-- `Parser::read_ipv6_addr` plus the end-of-input requirement of
`Ipv6Addr::from_str`: head groups (a full 8, possibly closed by an
embedded IPv4 tail), or fewer head groups — with no embedded IPv4 before
the `::` — then `::` and tail groups, the tail right-aligned and the gap
filled with zero groups. -/
def parseIpv6 (cs : List Char) : Option IpAddr :=
  let h := read_groups true 8 cs
  if h.1.length = 8 then
    if h.2.2.isEmpty then some (IpAddr.v6 h.1) else none
  else if h.2.1 then none
  else
    match read_given_char (':') h.2.2 with
    | none => none
    | some rest1 =>
      match read_given_char (':') rest1 with
      | none => none
      | some rest2 =>
        let t := read_groups true (8 - (h.1.length + 1)) rest2
        if t.2.2.isEmpty then
          some (IpAddr.v6 (h.1 ++ List.replicate (8 - h.1.length - t.1.length) 0 ++ t.1))
        else none

/-- `Ipv4Addr::from_str`: `read_ipv4_addr` and end of input. -/
def parseIpv4 (cs : List Char) : Option IpAddr :=
  match read_ipv4_addr cs with
  | some (q, rest) =>
    if rest.isEmpty then some (IpAddr.v4 q.1 q.2.1 q.2.2.1 q.2.2.2) else none
  | none => none

/-- `str::parse::<IpAddr>`: IPv4 first, then IPv6. -/
def parseIpAddr (cs : List Char) : Option IpAddr :=
  match parseIpv4 cs with
  | some ip => some ip
  | none => parseIpv6 cs

/-- `extract_ip_from_multiaddr`: the first slash-delimited segment that
parses as an IP address. -/
def extract_ip_from_multiaddr (addr : String) : Option IpAddr :=
  (splitOnChar ('/') addr.toList).findSome? parseIpAddr

/-- The set of distinct /16 prefixes among the IPv4 literals extracted
from the peer list (the `subnets_16` set built by
`validate_bootstrap_peers`). -/
def bootstrapSubnets16 (peers : List String) : Finset (Nat × Nat) :=
  ((peers.filterMap extract_ip_from_multiaddr).filterMap
    SubnetTracker.extract_subnet_16).toFinset

/-- `validate_bootstrap_peers`: at least `MIN_BOOTSTRAP_PEERS` entries and
at least that many distinct /16 prefixes. -/
def validate_bootstrap_peers (peers : List String) : Bool :=
  if peers.length < MIN_BOOTSTRAP_PEERS then false
  else if (bootstrapSubnets16 peers).card < MIN_BOOTSTRAP_PEERS then false
  else true

/-- The rate-limiter calls that may interleave between a block and a later
`can_attempt` query under claim C2: everything except `record_success` and
`cleanup`. -/
inductive RlOp where
  | attempt (now : Nat) (ip : IpAddr)
  | failure (now : Nat) (ip : IpAddr)

/-- Apply one interleaved rate-limiter call. -/
def rlApply (rl : ConnectionRateLimiter) : RlOp → ConnectionRateLimiter
  | .attempt now ip => rl.record_attempt now ip
  | .failure now ip => rl.record_failure now ip

/-- Apply a sequence of interleaved rate-limiter calls. -/
def rlRun (rl : ConnectionRateLimiter) (ops : List RlOp) : ConnectionRateLimiter :=
  ops.foldl rlApply rl

/-- Fold `add_connection` over a list of addresses; the flag is true iff
every single add returned `Ok`. -/
def Tracker.addAll {κ : Type} [DecidableEq κ] (extract : IpAddr → Option κ) :
    Tracker κ → List IpAddr → Tracker κ × Bool
  | t, [] => (t, true)
  | t, ip :: rest =>
    let r := Tracker.add_connection extract t ip
    let r2 := Tracker.addAll extract r.1 rest
    (r2.1, r.2 && r2.2)

/-! ### Helper lemmas -/

/-- A failing `remove_connection` analysis shared by the subnet-tracker
claims: with an entry of count `n ≥ 1`, removal for any address of that
prefix decrements the count, deleting the entry when it reaches zero, and
leaves every other prefix untouched. -/
lemma tracker_remove_entry {κ : Type} [DecidableEq κ]
    (extract : IpAddr → Option κ) (t : Tracker κ) (ip : IpAddr) (p : κ) (n : Nat)
    (hp : extract ip = some p) (hc : t.connections p = some n) (hn : 1 ≤ n) :
    ((Tracker.remove_connection extract t ip).connections p
        = if n = 1 then none else some (n - 1)) ∧
    ∀ q, q ≠ p → (Tracker.remove_connection extract t ip).connections q
        = t.connections q := by
  by_cases h1 : n = 1
  · subst h1
    simp [Tracker.remove_connection, hp, hc, updMap]
    intro q hq
    simp [hq]
  · have hne : ¬ (n - 1 = 0) := by omega
    simp [Tracker.remove_connection, hp, hc, hne, updMap, h1]
    intro q hq
    simp [hq]

/-- `add_connection` fails when the prefix count has reached the limit. -/
lemma tracker_add_at_cap {κ : Type} [DecidableEq κ]
    (extract : IpAddr → Option κ) (t : Tracker κ) (ip : IpAddr) (p : κ)
    (hp : extract ip = some p)
    (hcap : t.max_per_subnet ≤ (t.connections p).getD 0) :
    (Tracker.add_connection extract t ip).2 = false := by
  simp [Tracker.add_connection, hp, hcap]

/-- `add_connection` succeeds below the limit and increments the count. -/
lemma tracker_add_below_cap {κ : Type} [DecidableEq κ]
    (extract : IpAddr → Option κ) (t : Tracker κ) (ip : IpAddr) (p : κ)
    (hp : extract ip = some p)
    (hlt : (t.connections p).getD 0 < t.max_per_subnet) :
    Tracker.add_connection extract t ip
      = ({ t with connections :=
            updMap t.connections p (some ((t.connections p).getD 0 + 1)) }, true) := by
  have : ¬ (t.max_per_subnet ≤ (t.connections p).getD 0) := by omega
  simp [Tracker.add_connection, hp, this]

/-- A blocked entry (failure count at or above `max_failures`) survives
any single interleaved `record_attempt` or `record_failure` call, on any
IP: the entry stays present, still at or above the (unchanged) limit. -/
lemma rlApply_keeps_block (rl : ConnectionRateLimiter) (ip : IpAddr) (la f : Nat)
    (hf : rl.attempts ip = some (la, f)) (hmax : rl.max_failures ≤ f)
    (hf32 : f ≤ u32MAX) (op : RlOp) :
    ∃ la2 f2, (rlApply rl op).attempts ip = some (la2, f2) ∧
      (rlApply rl op).max_failures ≤ f2 ∧ f2 ≤ u32MAX := by
  cases op with
  | attempt now ip0 =>
    by_cases hip : ip = ip0
    · subst hip
      refine ⟨now, f, ?_, ?_, hf32⟩
      · simp [rlApply, ConnectionRateLimiter.record_attempt, hf, updMap]
      · simpa [rlApply, ConnectionRateLimiter.record_attempt, hf] using hmax
    · refine ⟨la, f, ?_, ?_, hf32⟩
      · cases h0 : rl.attempts ip0 <;>
          simp [rlApply, ConnectionRateLimiter.record_attempt, h0, updMap, hip, hf]
      · cases h0 : rl.attempts ip0 <;>
          simpa [rlApply, ConnectionRateLimiter.record_attempt, h0] using hmax
  | failure now ip0 =>
    by_cases hip : ip = ip0
    · subst hip
      refine ⟨now, min (f + 1) u32MAX, ?_, ?_, ?_⟩
      · simp [rlApply, ConnectionRateLimiter.record_failure, hf, updMap]
      · simp only [rlApply, ConnectionRateLimiter.record_failure, hf]
        omega
      · omega
    · refine ⟨la, f, ?_, ?_, hf32⟩
      · cases h0 : rl.attempts ip0 <;>
          simp [rlApply, ConnectionRateLimiter.record_failure, h0, updMap, hip, hf]
      · cases h0 : rl.attempts ip0 <;>
          simpa [rlApply, ConnectionRateLimiter.record_failure, h0] using hmax

/-- A blocked entry survives any sequence of interleaved `record_attempt`
and `record_failure` calls. -/
lemma rlRun_keeps_block : ∀ (ops : List RlOp) (rl : ConnectionRateLimiter) (ip : IpAddr),
    (∃ la f, rl.attempts ip = some (la, f) ∧ rl.max_failures ≤ f ∧ f ≤ u32MAX) →
    ∃ la f, (rlRun rl ops).attempts ip = some (la, f) ∧
      (rlRun rl ops).max_failures ≤ f ∧ f ≤ u32MAX := by
  intro ops
  induction ops with
  | nil => intro rl ip h; simpa [rlRun] using h
  | cons op rest IH =>
    intro rl ip h
    obtain ⟨la, f, hf, hmax, hf32⟩ := h
    have h2 := rlApply_keeps_block rl ip la f hf hmax hf32 op
    simpa [rlRun] using IH (rlApply rl op) ip h2

/-- A blocked entry forces `can_attempt` to false and
`time_until_allowed` to `Duration::MAX` at every instant. -/
lemma blocked_queries (rl : ConnectionRateLimiter) (ip : IpAddr) (la f : Nat)
    (hf : rl.attempts ip = some (la, f)) (hmax : rl.max_failures ≤ f) (now : Nat) :
    rl.can_attempt now ip = false ∧ rl.time_until_allowed now ip = durationMAX := by
  constructor
  · simp [ConnectionRateLimiter.can_attempt, hf, hmax]
  · simp [ConnectionRateLimiter.time_until_allowed, hf, hmax]

/-- One `ConnectionTracker` call keeps the count within the (unchanged)
ceiling. -/
lemma ct_apply_card (t : ConnectionTracker) (op : CtOp)
    (h : t.connections.card ≤ t.max_connections) :
    (t.applyOp op).connections.card ≤ (t.applyOp op).max_connections ∧
    (t.applyOp op).max_connections = t.max_connections := by
  cases op with
  | add ip =>
    by_cases hmem : ip ∈ t.connections
    · simpa [ConnectionTracker.applyOp, ConnectionTracker.add_connection, hmem] using h
    · by_cases hcap : t.connections.card ≥ t.max_connections
      · simpa [ConnectionTracker.applyOp, ConnectionTracker.add_connection, hmem,
          hcap] using h
      · have hins := Finset.card_insert_le ip t.connections
        simp only [ConnectionTracker.applyOp, ConnectionTracker.add_connection, hmem,
          if_neg, hcap, if_false, ite_false]
        exact ⟨by omega, by trivial⟩
  | remove ip =>
    have herase := Finset.card_erase_le (s := t.connections) (a := ip)
    refine ⟨?_, rfl⟩
    simp only [ConnectionTracker.applyOp, ConnectionTracker.remove_connection]
    omega

/-- Any sequence of `ConnectionTracker` calls keeps the count within the
ceiling. -/
lemma ct_runOps_card : ∀ (ops : List CtOp) (t : ConnectionTracker),
    t.connections.card ≤ t.max_connections →
    (ConnectionTracker.runOps t ops).connections.card
      ≤ (ConnectionTracker.runOps t ops).max_connections ∧
    (ConnectionTracker.runOps t ops).max_connections = t.max_connections := by
  intro ops
  induction ops with
  | nil => intro t h; exact ⟨h, rfl⟩
  | cons op rest IH =>
    intro t h
    have h1 := ct_apply_card t op h
    have h2 := IH (t.applyOp op) h1.1
    exact ⟨by simpa [ConnectionTracker.runOps] using h2.1,
      by simpa [ConnectionTracker.runOps, h1.2] using h2.2⟩

/-! ### Claim theorems -/

/-- C1: the claimed saturation of the backoff formula fails.  At the
configuration `with_config(1 s, 300 s, 100)` and failure count 33 the
code computes a required delay of 0 nanoseconds — the `as u32` cast in
`calculate_delay` truncates the multiplier `2 ^ 32` to 0 — whereas the
claimed formula `min(base_delay * 2 ^ (n - 1), max_delay)` evaluates to
`max_delay` (300 s). -/
theorem C1_delay_wraps_to_zero_at_33 :
    (ConnectionRateLimiter.with_config 1000000000 300000000000 100).calculate_delay 33 = 0 ∧
    min ((ConnectionRateLimiter.with_config 1000000000 300000000000 100).base_delay
          * 2 ^ (33 - 1))
        (ConnectionRateLimiter.with_config 1000000000 300000000000 100).max_delay
      = 300000000000 ∧
    (0 : Nat) ≠ 300000000000 := by
  refine ⟨by decide, ?_, by decide⟩
  have : (ConnectionRateLimiter.with_config 1000000000 300000000000 100).base_delay
      = 1000000000 := rfl
  rw [this]
  have : (ConnectionRateLimiter.with_config 1000000000 300000000000 100).max_delay
      = 300000000000 := rfl
  rw [this]
  norm_num

/-- C9: IPv6 addresses are exempt from both subnet trackers: the
acceptance check is always true and `add_connection` always returns
success with the tracker unchanged (so no count changes), regardless of
the tracker state or configured limits. -/
theorem C9_ipv6_exempt (t24 : SubnetTracker) (t16 : Subnet16Tracker) (gs : List Nat) :
    t24.can_accept_connection (IpAddr.v6 gs) = true ∧
    t24.add_connection (IpAddr.v6 gs) = (t24, true) ∧
    t16.can_accept_connection (IpAddr.v6 gs) = true ∧
    t16.add_connection (IpAddr.v6 gs) = (t16, true) := by
  refine ⟨rfl, rfl, rfl, rfl⟩

/-- C10: the subnet trackers count per prefix, not per IP.  For any IPv4
address whose /24 (resp. /16) prefix has count `n ≥ 1` — the address
itself need never have been added, only its prefix octets matter —
`remove_connection` decrements that prefix's count, deletes the entry
when it reaches zero, and leaves all other prefixes unchanged. -/
theorem C10_remove_counts_per_prefix (t24 : SubnetTracker) (t16 : Subnet16Tracker)
    (a b c d : Nat) (n24 n16 : Nat)
    (h24 : t24.connections (a, b, c) = some n24) (hn24 : 1 ≤ n24)
    (h16 : t16.connections (a, b) = some n16) (hn16 : 1 ≤ n16) :
    ((t24.remove_connection (IpAddr.v4 a b c d)).connections (a, b, c)
        = if n24 = 1 then none else some (n24 - 1)) ∧
    (∀ q, q ≠ (a, b, c) →
      (t24.remove_connection (IpAddr.v4 a b c d)).connections q = t24.connections q) ∧
    ((t16.remove_connection (IpAddr.v4 a b c d)).connections (a, b)
        = if n16 = 1 then none else some (n16 - 1)) ∧
    (∀ q, q ≠ (a, b) →
      (t16.remove_connection (IpAddr.v4 a b c d)).connections q = t16.connections q) := by
  have r24 := tracker_remove_entry SubnetTracker.extract_subnet_24 t24
    (IpAddr.v4 a b c d) (a, b, c) n24 rfl h24 hn24
  have r16 := tracker_remove_entry SubnetTracker.extract_subnet_16 t16
    (IpAddr.v4 a b c d) (a, b) n16 rfl h16 hn16
  exact ⟨r24.1, r24.2, r16.1, r16.2⟩

/-- C10 witness: a /24 tracker whose prefix `(10, 20, 30)` has count 2 and
a /16 tracker whose prefix `(10, 20)` has count 1; removing the never-added
address `10.20.30.99` decrements the /24 count to 1 and deletes the /16
entry. -/
theorem C10_witness :
    (SubnetTracker.remove_connection (Tracker.mk (fun _ => some 2) 5)
        (IpAddr.v4 10 20 30 99)).connections (10, 20, 30) = some 1 ∧
    (∀ q, q ≠ ((10 : Nat), (20 : Nat), (30 : Nat)) →
      (SubnetTracker.remove_connection (Tracker.mk (fun _ => some 2) 5)
          (IpAddr.v4 10 20 30 99)).connections q
        = (Tracker.mk (fun _ => some 2) 5 : SubnetTracker).connections q) ∧
    (Subnet16Tracker.remove_connection (Tracker.mk (fun _ => some 1) 3)
        (IpAddr.v4 10 20 30 99)).connections (10, 20) = none ∧
    (∀ q, q ≠ ((10 : Nat), (20 : Nat)) →
      (Subnet16Tracker.remove_connection (Tracker.mk (fun _ => some 1) 3)
          (IpAddr.v4 10 20 30 99)).connections q
        = (Tracker.mk (fun _ => some 1) 3 : Subnet16Tracker).connections q) := by
  have h := C10_remove_counts_per_prefix (Tracker.mk (fun _ => some 2) 5)
    (Tracker.mk (fun _ => some 1) 3) 10 20 30 99 2 1 rfl (by decide) rfl (by decide)
  exact ⟨h.1, h.2.1, h.2.2.1, h.2.2.2⟩

/-- C3: the age-based `cleanup` sweep evicts even a permanently blocked
entry: if an IP's failure count has reached `max_failures` but its
last-attempt timestamp is at least `max_age` old, `cleanup(max_age)`
removes the entry and `can_attempt` returns true again. -/
theorem C3_cleanup_evicts_blocked (rl : ConnectionRateLimiter) (ip : IpAddr)
    (la f now max_age : Nat)
    (hf : rl.attempts ip = some (la, f)) (_hmax : rl.max_failures ≤ f)
    (hage : max_age ≤ now - la) :
    (rl.cleanup now max_age).attempts ip = none ∧
    (rl.cleanup now max_age).can_attempt now ip = true := by
  have h1 : (rl.cleanup now max_age).attempts ip = none := by
    simp only [ConnectionRateLimiter.cleanup, hf]
    have : ¬ (now - la < max_age) := by omega
    simp [this]
  refine ⟨h1, ?_⟩
  simp [ConnectionRateLimiter.can_attempt, h1]

/-- C3 witness: a limiter with `max_failures = 3`, an entry of 3 failures
stamped at instant 0, swept at instant 100 with `max_age = 50`. -/
theorem C3_witness :
    ((ConnectionRateLimiter.mk (fun _ => some (0, 3)) 1 10 3).cleanup 100 50).attempts
      (IpAddr.v4 1 2 3 4) = none ∧
    ((ConnectionRateLimiter.mk (fun _ => some (0, 3)) 1 10 3).cleanup 100 50).can_attempt
      100 (IpAddr.v4 1 2 3 4) = true :=
  C3_cleanup_evicts_blocked (ConnectionRateLimiter.mk (fun _ => some (0, 3)) 1 10 3)
    (IpAddr.v4 1 2 3 4) 0 3 100 50 rfl (by decide) (by decide)

/-- C8 counterexample: with a per-prefix limit of 0 and an absent prefix,
`add_connection` returns an error but does mutate the tracker — the
`entry(subnet).or_insert(0)` call materialises a zero-count entry for the
prefix before the limit check, so the entry `(1, 2, 3) ↦ 0` appears in
the map even though the add failed. -/
theorem C8_counterexample :
    ((SubnetTracker.with_limit 0).add_connection (IpAddr.v4 1 2 3 4)).2 = false ∧
    (SubnetTracker.with_limit 0).connections (1, 2, 3) = none ∧
    ((SubnetTracker.with_limit 0).add_connection (IpAddr.v4 1 2 3 4)).1.connections
        (1, 2, 3) = some 0 := by
  refine ⟨by decide, rfl, by decide⟩

/-- C8 amended: on the error path `add_connection` never changes any
count.  When the prefix already has a map entry at or above the cap (the
only possible at-cap case once the limit is ≥ 1), the tracker is left
completely unmutated.  In the remaining at-cap case — limit 0 and an
absent prefix — the failed add leaves a fresh zero-count entry in the map
(so the "no new prefix entry" part of the original claim fails), but all
reported counts are still unchanged. -/
theorem C8_add_error_path {κ : Type} [DecidableEq κ]
    (extract : IpAddr → Option κ) (t : Tracker κ) (ip : IpAddr) (p : κ)
    (hp : extract ip = some p) :
    (∀ c, t.connections p = some c → t.max_per_subnet ≤ c →
      (Tracker.add_connection extract t ip).2 = false ∧
      ∀ q, (Tracker.add_connection extract t ip).1.connections q = t.connections q) ∧
    (t.connections p = none → t.max_per_subnet = 0 →
      (Tracker.add_connection extract t ip).2 = false ∧
      (Tracker.add_connection extract t ip).1.connections p = some 0 ∧
      ∀ q, ((Tracker.add_connection extract t ip).1.connections q).getD 0
        = (t.connections q).getD 0) := by
  constructor
  · intro c hc hcap
    have hcap0 : t.max_per_subnet ≤ (t.connections p).getD 0 := by
      rw [hc]; exact hcap
    refine ⟨?_, ?_⟩
    · simp [Tracker.add_connection, hp, hcap0]
    · intro q
      simp only [Tracker.add_connection, hp]
      rw [hc]
      simp only [Option.getD_some]
      have : t.max_per_subnet ≤ c := hcap
      simp only [ge_iff_le, this, if_pos]
      by_cases hq : q = p
      · subst hq; simp [updMap, hc]
      · simp [updMap, hq]
  · intro hnone hzero
    have hcap0 : t.max_per_subnet ≤ (t.connections p).getD 0 := by
      rw [hnone, hzero]; simp
    refine ⟨?_, ?_, ?_⟩
    · simp [Tracker.add_connection, hp, hcap0]
    · simp only [Tracker.add_connection, hp]
      rw [hnone]
      simp only [Option.getD_none]
      rw [hzero]
      simp [updMap]
    · intro q
      simp only [Tracker.add_connection, hp]
      rw [hnone, hzero]
      simp only [Option.getD_none, Nat.le_refl, if_pos, ge_iff_le]
      by_cases hq : q = p
      · subst hq; simp [updMap, hnone]
      · simp [updMap, hq]

/-- C8 witness: the amended statement instantiated at a /24 tracker whose
prefix `(9, 9, 9)` is already at the cap 2. -/
theorem C8_witness :
    (∀ c, (Tracker.mk (fun _ => some 2) 2 : SubnetTracker).connections (9, 9, 9) = some c →
      (Tracker.mk (fun _ => some 2) 2 : SubnetTracker).max_per_subnet ≤ c →
      (Tracker.add_connection SubnetTracker.extract_subnet_24
        (Tracker.mk (fun _ => some 2) 2) (IpAddr.v4 9 9 9 9)).2 = false ∧
      ∀ q, (Tracker.add_connection SubnetTracker.extract_subnet_24
        (Tracker.mk (fun _ => some 2) 2) (IpAddr.v4 9 9 9 9)).1.connections q
          = (Tracker.mk (fun _ => some 2) 2 : SubnetTracker).connections q) ∧
    ((Tracker.mk (fun _ => some 2) 2 : SubnetTracker).connections (9, 9, 9) = none →
      (Tracker.mk (fun _ => some 2) 2 : SubnetTracker).max_per_subnet = 0 →
      (Tracker.add_connection SubnetTracker.extract_subnet_24
        (Tracker.mk (fun _ => some 2) 2) (IpAddr.v4 9 9 9 9)).2 = false ∧
      (Tracker.add_connection SubnetTracker.extract_subnet_24
        (Tracker.mk (fun _ => some 2) 2) (IpAddr.v4 9 9 9 9)).1.connections (9, 9, 9)
          = some 0 ∧
      ∀ q, ((Tracker.add_connection SubnetTracker.extract_subnet_24
        (Tracker.mk (fun _ => some 2) 2) (IpAddr.v4 9 9 9 9)).1.connections q).getD 0
          = ((Tracker.mk (fun _ => some 2) 2 : SubnetTracker).connections q).getD 0) :=
  C8_add_error_path SubnetTracker.extract_subnet_24
    (Tracker.mk (fun _ => some 2) 2) (IpAddr.v4 9 9 9 9) (9, 9, 9) rfl

/-- C2: once an IP's failure count has reached `max_failures`, then after
any sequence of interleaved `record_attempt` / `record_failure` calls
(i.e. absent `record_success` and `cleanup`), `can_attempt` is false at
every instant — no elapsed time unblocks it — and `time_until_allowed`
returns the `Duration::MAX` "never" sentinel. -/
theorem C2_permanent_block (rl : ConnectionRateLimiter) (ip : IpAddr) (la f : Nat)
    (hf : rl.attempts ip = some (la, f)) (hmax : rl.max_failures ≤ f)
    (hf32 : f ≤ u32MAX) (ops : List RlOp) :
    (∀ now, (rlRun rl ops).can_attempt now ip = false) ∧
    (∀ now, (rlRun rl ops).time_until_allowed now ip = durationMAX) := by
  obtain ⟨la2, f2, hf2, hmax2, _⟩ := rlRun_keeps_block ops rl ip ⟨la, f, hf, hmax, hf32⟩
  exact ⟨fun now => (blocked_queries (rlRun rl ops) ip la2 f2 hf2 hmax2 now).1,
    fun now => (blocked_queries (rlRun rl ops) ip la2 f2 hf2 hmax2 now).2⟩

/-- C2 witness: an IP with 5 failures against `max_failures = 5` stays
blocked across an interleaved attempt and an unrelated failure. -/
theorem C2_witness :
    (∀ now, (rlRun (ConnectionRateLimiter.mk (fun _ => some (0, 5)) 1 10 5)
        [RlOp.attempt 7 (IpAddr.v4 1 2 3 4), RlOp.failure 9 (IpAddr.v4 5 6 7 8)]).can_attempt
        now (IpAddr.v4 1 2 3 4) = false) ∧
    (∀ now, (rlRun (ConnectionRateLimiter.mk (fun _ => some (0, 5)) 1 10 5)
        [RlOp.attempt 7 (IpAddr.v4 1 2 3 4), RlOp.failure 9 (IpAddr.v4 5 6 7 8)]).time_until_allowed
        now (IpAddr.v4 1 2 3 4) = durationMAX) :=
  C2_permanent_block (ConnectionRateLimiter.mk (fun _ => some (0, 5)) 1 10 5)
    (IpAddr.v4 1 2 3 4) 0 5 rfl (by decide) (by decide)
    [RlOp.attempt 7 (IpAddr.v4 1 2 3 4), RlOp.failure 9 (IpAddr.v4 5 6 7 8)]

/-- C7: the total connection tracker is idempotent on re-adds (success,
state — hence `current_count` — unchanged), removing an untracked IP is a
no-op, and from the empty tracker every sequence of add/remove calls
keeps `current_count` at or below the configured maximum. -/
theorem C7_total_tracker (t : ConnectionTracker) (ip ip2 : IpAddr)
    (hin : ip ∈ t.connections) (hout : ip2 ∉ t.connections) :
    t.add_connection ip = (t, true) ∧
    t.remove_connection ip2 = t ∧
    ∀ (m : Nat) (ops : List CtOp),
      (ConnectionTracker.runOps (ConnectionTracker.new m) ops).current_count ≤ m := by
  refine ⟨by simp [ConnectionTracker.add_connection, hin], ?_, ?_⟩
  · simp [ConnectionTracker.remove_connection, Finset.erase_eq_of_not_mem hout]
  · intro m ops
    have h := ct_runOps_card ops (ConnectionTracker.new m)
      (by simp [ConnectionTracker.new])
    have hmax : (ConnectionTracker.runOps (ConnectionTracker.new m) ops).max_connections
        = m := h.2
    have := h.1
    rw [hmax] at this
    exact this

/-- C7 witness: a tracker holding `1.1.1.1` with ceiling 3; `2.2.2.2` is
untracked. -/
theorem C7_witness :
    (ConnectionTracker.mk {IpAddr.v4 1 1 1 1} 3).add_connection (IpAddr.v4 1 1 1 1)
      = (ConnectionTracker.mk {IpAddr.v4 1 1 1 1} 3, true) ∧
    (ConnectionTracker.mk {IpAddr.v4 1 1 1 1} 3).remove_connection (IpAddr.v4 2 2 2 2)
      = ConnectionTracker.mk {IpAddr.v4 1 1 1 1} 3 ∧
    ∀ (m : Nat) (ops : List CtOp),
      (ConnectionTracker.runOps (ConnectionTracker.new m) ops).current_count ≤ m :=
  C7_total_tracker (ConnectionTracker.mk {IpAddr.v4 1 1 1 1} 3)
    (IpAddr.v4 1 1 1 1) (IpAddr.v4 2 2 2 2) (by decide) (by decide)

/-- C5: `validate_bootstrap_peers` succeeds exactly when the list has at
least `MIN_BOOTSTRAP_PEERS` (3) entries and the parsed IPv4 literals span
at least 3 distinct /16 prefixes; in particular it errors on any list of
fewer than 3 entries and on any list (of any length) spanning fewer than
3 distinct /16s. -/
theorem C5_validate_bootstrap_iff (peers : List String) :
    validate_bootstrap_peers peers = true ↔
      MIN_BOOTSTRAP_PEERS ≤ peers.length ∧
      MIN_BOOTSTRAP_PEERS ≤ (bootstrapSubnets16 peers).card := by
  unfold validate_bootstrap_peers
  split_ifs with h1 h2 <;> simp <;> omega

/-- Folding `add_connection` over addresses that all share prefix `p`,
with enough headroom, succeeds throughout, raises `p`'s count by the list
length, and leaves every other prefix (and the limit) untouched. -/
lemma addAll_same_prefix {κ : Type} [DecidableEq κ] (extract : IpAddr → Option κ)
    (p : κ) :
    ∀ (ips : List IpAddr) (t : Tracker κ),
      (∀ ip ∈ ips, extract ip = some p) →
      (t.connections p).getD 0 + ips.length ≤ t.max_per_subnet →
      (Tracker.addAll extract t ips).2 = true ∧
      ((Tracker.addAll extract t ips).1.connections p).getD 0
        = (t.connections p).getD 0 + ips.length ∧
      (Tracker.addAll extract t ips).1.max_per_subnet = t.max_per_subnet ∧
      ∀ q, q ≠ p → (Tracker.addAll extract t ips).1.connections q = t.connections q := by
  intro ips
  induction ips with
  | nil =>
    intro t _ _
    exact ⟨rfl, by simp [Tracker.addAll], rfl, fun q _ => rfl⟩
  | cons ip rest IH =>
    intro t hpre hcap
    have hp : extract ip = some p := hpre ip (List.mem_cons_self ip rest)
    have hlen : (ip :: rest).length = rest.length + 1 := List.length_cons ip rest
    have hlt : (t.connections p).getD 0 < t.max_per_subnet := by
      rw [hlen] at hcap; omega
    have hstep := tracker_add_below_cap extract t ip p hp hlt
    set t1 : Tracker κ := Tracker.mk
        (updMap t.connections p (some ((t.connections p).getD 0 + 1)))
        t.max_per_subnet with ht1def
    have ht1p : (t1.connections p).getD 0 = (t.connections p).getD 0 + 1 := by
      rw [ht1def]; simp [updMap]
    have ht1max : t1.max_per_subnet = t.max_per_subnet := by rw [ht1def]
    have ht1q : ∀ q, q ≠ p → t1.connections q = t.connections q := by
      intro q hq; rw [ht1def]; simp [updMap, hq]
    have ih := IH t1 (fun ip2 h2 => hpre ip2 (List.mem_cons_of_mem ip h2))
      (by rw [ht1p, ht1max]; rw [hlen] at hcap; omega)
    have hunfold : Tracker.addAll extract t (ip :: rest)
        = Tracker.addAll extract t1 rest := by
      simp [Tracker.addAll, hstep]
    refine ⟨?_, ?_, ?_, ?_⟩
    · rw [hunfold, ih.1]
    · rw [hunfold, ih.2.1, ht1p, hlen]; omega
    · rw [hunfold, ih.2.2.1, ht1max]
    · intro q hq
      rw [hunfold, ih.2.2.2 q hq, ht1q q hq]

/-- C4: starting from an empty /24 tracker with limit `L`, the first `L`
adds for addresses sharing one /24 prefix all succeed, the `(L+1)`-th add
in that /24 fails, every other /24 prefix still has no entry, and an add
for an address outside that /24 succeeds; likewise for the /16 tracker
with limit `M`. -/
theorem C4_subnet_caps (L M : Nat) (hL : 0 < L) (hM : 0 < M)
    (p24 q24 : Nat × Nat × Nat) (p16 q16 : Nat × Nat)
    (ips24 ips16 : List IpAddr) (ipa ipb ipc ipd : IpAddr)
    (h24 : ∀ ip ∈ ips24, SubnetTracker.extract_subnet_24 ip = some p24)
    (hlen24 : ips24.length = L)
    (ha : SubnetTracker.extract_subnet_24 ipa = some p24)
    (hb : SubnetTracker.extract_subnet_24 ipb = some q24) (hbq : q24 ≠ p24)
    (h16 : ∀ ip ∈ ips16, SubnetTracker.extract_subnet_16 ip = some p16)
    (hlen16 : ips16.length = M)
    (hc : SubnetTracker.extract_subnet_16 ipc = some p16)
    (hd : SubnetTracker.extract_subnet_16 ipd = some q16) (hdq : q16 ≠ p16) :
    (Tracker.addAll SubnetTracker.extract_subnet_24
        (SubnetTracker.with_limit L) ips24).2 = true ∧
    (SubnetTracker.add_connection
      (Tracker.addAll SubnetTracker.extract_subnet_24
        (SubnetTracker.with_limit L) ips24).1 ipa).2 = false ∧
    (∀ q, q ≠ p24 →
      (Tracker.addAll SubnetTracker.extract_subnet_24
        (SubnetTracker.with_limit L) ips24).1.connections q = none) ∧
    (SubnetTracker.add_connection
      (Tracker.addAll SubnetTracker.extract_subnet_24
        (SubnetTracker.with_limit L) ips24).1 ipb).2 = true ∧
    (Tracker.addAll SubnetTracker.extract_subnet_16
        (Subnet16Tracker.with_limit M) ips16).2 = true ∧
    (Subnet16Tracker.add_connection
      (Tracker.addAll SubnetTracker.extract_subnet_16
        (Subnet16Tracker.with_limit M) ips16).1 ipc).2 = false ∧
    (∀ q, q ≠ p16 →
      (Tracker.addAll SubnetTracker.extract_subnet_16
        (Subnet16Tracker.with_limit M) ips16).1.connections q = none) ∧
    (Subnet16Tracker.add_connection
      (Tracker.addAll SubnetTracker.extract_subnet_16
        (Subnet16Tracker.with_limit M) ips16).1 ipd).2 = true := by
  have base24 := addAll_same_prefix SubnetTracker.extract_subnet_24 p24 ips24
    (SubnetTracker.with_limit L) h24
    (by simp [SubnetTracker.with_limit, hlen24])
  have base16 := addAll_same_prefix SubnetTracker.extract_subnet_16 p16 ips16
    (Subnet16Tracker.with_limit M) h16
    (by simp [Subnet16Tracker.with_limit, hlen16])
  have hmax24 : (Tracker.addAll SubnetTracker.extract_subnet_24
      (SubnetTracker.with_limit L) ips24).1.max_per_subnet = L := base24.2.2.1
  have hmax16 : (Tracker.addAll SubnetTracker.extract_subnet_16
      (Subnet16Tracker.with_limit M) ips16).1.max_per_subnet = M := base16.2.2.1
  have hcnt24 : ((Tracker.addAll SubnetTracker.extract_subnet_24
      (SubnetTracker.with_limit L) ips24).1.connections p24).getD 0 = L := by
    have := base24.2.1
    simpa [SubnetTracker.with_limit, hlen24] using this
  have hcnt16 : ((Tracker.addAll SubnetTracker.extract_subnet_16
      (Subnet16Tracker.with_limit M) ips16).1.connections p16).getD 0 = M := by
    have := base16.2.1
    simpa [Subnet16Tracker.with_limit, hlen16] using this
  have hq24 : ∀ q, q ≠ p24 → (Tracker.addAll SubnetTracker.extract_subnet_24
      (SubnetTracker.with_limit L) ips24).1.connections q = none := by
    intro q hq
    exact base24.2.2.2 q hq
  have hq16 : ∀ q, q ≠ p16 → (Tracker.addAll SubnetTracker.extract_subnet_16
      (Subnet16Tracker.with_limit M) ips16).1.connections q = none := by
    intro q hq
    exact base16.2.2.2 q hq
  refine ⟨base24.1, ?_, hq24, ?_, base16.1, ?_, hq16, ?_⟩
  · exact tracker_add_at_cap SubnetTracker.extract_subnet_24 _ ipa p24 ha
      (by rw [hmax24, hcnt24])
  · have hzero : ((Tracker.addAll SubnetTracker.extract_subnet_24
        (SubnetTracker.with_limit L) ips24).1.connections q24).getD 0 = 0 := by
      rw [hq24 q24 hbq]; rfl
    have := tracker_add_below_cap SubnetTracker.extract_subnet_24 _ ipb q24 hb
      (by rw [hzero, hmax24]; exact hL)
    simp only [SubnetTracker.add_connection, this]
  · exact tracker_add_at_cap SubnetTracker.extract_subnet_16 _ ipc p16 hc
      (by rw [hmax16, hcnt16])
  · have hzero : ((Tracker.addAll SubnetTracker.extract_subnet_16
        (Subnet16Tracker.with_limit M) ips16).1.connections q16).getD 0 = 0 := by
      rw [hq16 q16 hdq]; rfl
    have := tracker_add_below_cap SubnetTracker.extract_subnet_16 _ ipd q16 hd
      (by rw [hzero, hmax16]; exact hM)
    simp only [Subnet16Tracker.add_connection, this]

/-- C4 witness: the default limits 5 (for /24) and 3 (for /16), five
addresses in `10.0.0.0/24`, three addresses in `10.0.0.0/16`, a sixth
(resp. fourth) same-prefix address that fails, and an outside address
that succeeds. -/
theorem C4_witness :
    (Tracker.addAll SubnetTracker.extract_subnet_24 (SubnetTracker.with_limit 5)
      [IpAddr.v4 10 0 0 1, IpAddr.v4 10 0 0 2, IpAddr.v4 10 0 0 3,
       IpAddr.v4 10 0 0 4, IpAddr.v4 10 0 0 5]).2 = true ∧
    (SubnetTracker.add_connection
      (Tracker.addAll SubnetTracker.extract_subnet_24 (SubnetTracker.with_limit 5)
        [IpAddr.v4 10 0 0 1, IpAddr.v4 10 0 0 2, IpAddr.v4 10 0 0 3,
         IpAddr.v4 10 0 0 4, IpAddr.v4 10 0 0 5]).1 (IpAddr.v4 10 0 0 6)).2 = false ∧
    (∀ q, q ≠ ((10 : Nat), (0 : Nat), (0 : Nat)) →
      (Tracker.addAll SubnetTracker.extract_subnet_24 (SubnetTracker.with_limit 5)
        [IpAddr.v4 10 0 0 1, IpAddr.v4 10 0 0 2, IpAddr.v4 10 0 0 3,
         IpAddr.v4 10 0 0 4, IpAddr.v4 10 0 0 5]).1.connections q = none) ∧
    (SubnetTracker.add_connection
      (Tracker.addAll SubnetTracker.extract_subnet_24 (SubnetTracker.with_limit 5)
        [IpAddr.v4 10 0 0 1, IpAddr.v4 10 0 0 2, IpAddr.v4 10 0 0 3,
         IpAddr.v4 10 0 0 4, IpAddr.v4 10 0 0 5]).1 (IpAddr.v4 10 0 1 1)).2 = true ∧
    (Tracker.addAll SubnetTracker.extract_subnet_16 (Subnet16Tracker.with_limit 3)
      [IpAddr.v4 10 0 0 1, IpAddr.v4 10 0 1 1, IpAddr.v4 10 0 2 1]).2 = true ∧
    (Subnet16Tracker.add_connection
      (Tracker.addAll SubnetTracker.extract_subnet_16 (Subnet16Tracker.with_limit 3)
        [IpAddr.v4 10 0 0 1, IpAddr.v4 10 0 1 1, IpAddr.v4 10 0 2 1]).1
      (IpAddr.v4 10 0 9 9)).2 = false ∧
    (∀ q, q ≠ ((10 : Nat), (0 : Nat)) →
      (Tracker.addAll SubnetTracker.extract_subnet_16 (Subnet16Tracker.with_limit 3)
        [IpAddr.v4 10 0 0 1, IpAddr.v4 10 0 1 1, IpAddr.v4 10 0 2 1]).1.connections q
        = none) ∧
    (Subnet16Tracker.add_connection
      (Tracker.addAll SubnetTracker.extract_subnet_16 (Subnet16Tracker.with_limit 3)
        [IpAddr.v4 10 0 0 1, IpAddr.v4 10 0 1 1, IpAddr.v4 10 0 2 1]).1
      (IpAddr.v4 10 1 0 1)).2 = true :=
  C4_subnet_caps 5 3 (by decide) (by decide) (10, 0, 0) (10, 0, 1) (10, 0) (10, 1)
    [IpAddr.v4 10 0 0 1, IpAddr.v4 10 0 0 2, IpAddr.v4 10 0 0 3,
     IpAddr.v4 10 0 0 4, IpAddr.v4 10 0 0 5]
    [IpAddr.v4 10 0 0 1, IpAddr.v4 10 0 1 1, IpAddr.v4 10 0 2 1]
    (IpAddr.v4 10 0 0 6) (IpAddr.v4 10 0 1 1) (IpAddr.v4 10 0 9 9) (IpAddr.v4 10 1 0 1)
    (by decide) (by decide) (by decide) (by decide) (by decide)
    (by decide) (by decide) (by decide) (by decide) (by decide)

/-- Every admitted timestamp of a trace is one of the trace's call
instants. -/
lemma grlSuccess_mem : ∀ (ts : List Nat) (g : GlobalConnectionRateLimiter) (x : Nat),
    x ∈ grlSuccessTimes g ts → x ∈ ts := by
  intro ts
  induction ts with
  | nil => intro g x hx; simp [grlSuccessTimes] at hx
  | cons t ts IH =>
    intro g x hx
    cases hr : (g.record_new_connection t).2 with
    | true =>
      rw [grlSuccessTimes] at hx
      simp only [hr, if_true] at hx
      rcases List.mem_cons.mp hx with h | h
      · exact h ▸ List.mem_cons_self t ts
      · exact List.mem_cons_of_mem t (IH _ x h)
    | false =>
      rw [grlSuccessTimes] at hx
      simp only [hr, Bool.false_eq_true, if_false] at hx
      exact List.mem_cons_of_mem t (IH _ x hx)

/-- Filtering with a predicate that holds on every element counted by `p`
does not change the `p`-count. -/
lemma countP_filter_keep {p q : Nat → Bool} :
    ∀ l : List Nat, (∀ x ∈ l, p x = true → q x = true) →
      (l.filter q).countP p = l.countP p := by
  intro l
  induction l with
  | nil => intro _; rfl
  | cons x xs IH =>
    intro h
    have hxs : ∀ y ∈ xs, p y = true → q y = true :=
      fun y hy => h y (List.mem_cons_of_mem x hy)
    cases hq : q x with
    | false =>
      have hp : p x = false := by
        cases hpx : p x
        · rfl
        · rw [h x (List.mem_cons_self x xs) hpx] at hq
          exact absurd hq (by simp)
      simp [List.filter_cons, hq, List.countP_cons, hp, IH hxs]
    | true =>
      simp [List.filter_cons, hq, List.countP_cons, IH hxs]

/-- The two possible outcomes of `record_new_connection`: admitted with
`now` appended to the pruned list when the surviving count is below the
cap, rejected with only the pruning applied otherwise. -/
lemma grl_record_step (g : GlobalConnectionRateLimiter) (now : Nat) :
    ((g.connection_times.filter
          (fun y => decide (now - y < g.window_duration))).length < g.max_per_window ∧
      g.record_new_connection now
        = ({ g with connection_times := (g.connection_times.filter (fun y => decide (now - y < g.window_duration))) ++ [now] }, true)) ∨
    (g.max_per_window ≤ (g.connection_times.filter
          (fun y => decide (now - y < g.window_duration))).length ∧
      g.record_new_connection now
        = ({ g with connection_times := g.connection_times.filter (fun y => decide (now - y < g.window_duration)) }, false)) := by
  by_cases h : (g.connection_times.filter
      (fun y => decide (now - y < g.window_duration))).length ≥ g.max_per_window
  · right
    refine ⟨h, ?_⟩
    simp [GlobalConnectionRateLimiter.record_new_connection,
      GlobalConnectionRateLimiter.cleanup_expired, h]
  · left
    refine ⟨by omega, ?_⟩
    simp [GlobalConnectionRateLimiter.record_new_connection,
      GlobalConnectionRateLimiter.cleanup_expired, h]

/-- Sliding-window span bound, generalised for the trace induction: for a
monotone trace whose pending timestamps all precede the trace and number
at most `cap`, the admissions inside the span `[a, a + w)` plus the
pending in-span timestamps never exceed `cap`. -/
lemma grl_span_bound (w cap a : Nat) :
    ∀ (ts : List Nat) (g : GlobalConnectionRateLimiter),
      g.window_duration = w → g.max_per_window = cap →
      List.Pairwise (· ≤ ·) ts →
      (∀ y ∈ g.connection_times, ∀ t ∈ ts, y ≤ t) →
      g.connection_times.length ≤ cap →
      (grlSuccessTimes g ts).countP (fun x => decide (a ≤ x ∧ x < a + w))
        + g.connection_times.countP (fun x => decide (a ≤ x ∧ x < a + w)) ≤ cap := by
  intro ts
  induction ts with
  | nil =>
    intro g _ _ _ _ hlen
    have hc := List.countP_le_length
      (p := fun x => decide (a ≤ x ∧ x < a + w)) (l := g.connection_times)
    simp only [grlSuccessTimes, List.countP_nil]
    omega
  | cons t ts IH =>
    intro g hw hcap hsort hle hlen
    have hsort2 : List.Pairwise (· ≤ ·) ts := (List.pairwise_cons.mp hsort).2
    have htle : ∀ u ∈ ts, t ≤ u := (List.pairwise_cons.mp hsort).1
    by_cases hspan : a + w ≤ t
    · -- all further calls are past the span; no admissions can land in it
      have hz : (grlSuccessTimes g (t :: ts)).countP
          (fun x => decide (a ≤ x ∧ x < a + w)) = 0 := by
        rw [List.countP_eq_zero]
        intro x hx
        have hmem := grlSuccess_mem (t :: ts) g x hx
        have hxt : t ≤ x := by
          rcases List.mem_cons.mp hmem with h | h
          · omega
          · exact htle x h
        simp only [decide_eq_true_eq, not_and, not_lt]
        intro _
        omega
      have hc := List.countP_le_length
        (p := fun x => decide (a ≤ x ∧ x < a + w)) (l := g.connection_times)
      omega
    · -- t < a + w: pruning at t keeps every in-span timestamp
      have hkeep : (g.connection_times.filter
            (fun y => decide (t - y < g.window_duration))).countP
            (fun x => decide (a ≤ x ∧ x < a + w))
          = g.connection_times.countP (fun x => decide (a ≤ x ∧ x < a + w)) := by
        apply countP_filter_keep
        intro y hy hp
        have hyt : y ≤ t := hle y hy t (List.mem_cons_self t ts)
        rw [hw]
        simp only [decide_eq_true_eq] at hp ⊢
        omega
      have hsub : ∀ y ∈ g.connection_times.filter
          (fun y => decide (t - y < g.window_duration)), y ∈ g.connection_times :=
        fun y hy => (List.mem_filter.mp hy).1
      have hfl := List.length_filter_le
        (fun y => decide (t - y < g.window_duration)) g.connection_times
      rcases grl_record_step g t with ⟨hlt, hrec⟩ | ⟨hge, hrec⟩
      · -- admitted at t
        have hsucc : grlSuccessTimes g (t :: ts)
            = t :: grlSuccessTimes { g with connection_times := (g.connection_times.filter (fun y => decide (t - y < g.window_duration))) ++ [t] } ts := by
          rw [grlSuccessTimes, hrec]
          simp
        have ih := IH { g with connection_times := (g.connection_times.filter (fun y => decide (t - y < g.window_duration))) ++ [t] }
          hw hcap hsort2
          (by
            intro y hy u hu
            rcases List.mem_append.mp hy with h | h
            · exact le_trans (hle y (hsub y h) t (List.mem_cons_self t ts)) (htle u hu)
            · have : y = t := by simpa using h
              exact this ▸ htle u hu)
          (by
            simp only [List.length_append, List.length_singleton]
            rw [hcap] at hlt
            omega)
        rw [hsucc, List.countP_cons]
        simp only [List.countP_append] at ih
        rw [hkeep] at ih
        cases hb : decide (a ≤ t ∧ t < a + w) <;>
          simp only [hb, List.countP_cons, List.countP_nil, decide_eq_true_eq,
            cond_false, cond_true] at ih ⊢ <;>
          omega
      · -- rejected at t
        have hsucc : grlSuccessTimes g (t :: ts)
            = grlSuccessTimes { g with connection_times := g.connection_times.filter (fun y => decide (t - y < g.window_duration)) } ts := by
          rw [grlSuccessTimes, hrec]
          simp
        have ih := IH { g with connection_times := g.connection_times.filter (fun y => decide (t - y < g.window_duration)) }
          hw hcap hsort2
          (by
            intro y hy u hu
            exact le_trans (hle y (hsub y hy) t (List.mem_cons_self t ts)) (htle u hu))
          (by
            simp only []
            omega)
        rw [hsucc]
        rw [hkeep] at ih
        omega

/-- A full window with exactly the oldest timestamp expired admits the
next call and is full again afterwards: exactly one slot reopened. -/
lemma grl_slot_reopen (g : GlobalConnectionRateLimiter) (now x : Nat)
    (rest : List Nat)
    (htimes : g.connection_times = x :: rest)
    (hfull : g.connection_times.length = g.max_per_window)
    (hold : g.window_duration ≤ now - x)
    (hfresh : ∀ y ∈ rest, now - y < g.window_duration) :
    (g.record_new_connection now).2 = true ∧
    (g.record_new_connection now).1.connection_times.length = g.max_per_window := by
  have hpr : g.connection_times.filter
      (fun y => decide (now - y < g.window_duration)) = rest := by
    have hx : decide (now - x < g.window_duration) = false := by
      simp only [decide_eq_false_iff_not, not_lt]
      omega
    rw [htimes, List.filter_cons, hx]
    simp only [Bool.false_eq_true, if_false]
    apply List.filter_eq_self.mpr
    intro y hy
    simpa using hfresh y hy
  have hlen1 : rest.length + 1 = g.max_per_window := by
    rw [htimes] at hfull
    simpa using hfull
  rcases grl_record_step g now with ⟨hlt, hrec⟩ | ⟨hge, hrec⟩
  · rw [hrec]
    refine ⟨rfl, ?_⟩
    simp only [hpr, List.length_append, List.length_singleton]
    omega
  · exfalso
    rw [hpr] at hge
    omega

/-- C6: the global limiter is a true sliding window.  (1) A call admits
exactly when the count surviving the prune is below the cap, appending
`now` on admission and leaving only the pruned list on rejection —
nothing is recorded on rejection.  (2) From a fresh limiter, along any
monotone trace of calls, at most `cap` admissions succeed inside any span
`[a, a + w)` of one window length.  (3) When the window is full and
exactly the oldest timestamp has aged past the window, the next call is
admitted and the window is full again: one slot reopens. -/
theorem C6_sliding_window :
    (∀ (g : GlobalConnectionRateLimiter) (now : Nat),
      ((g.record_new_connection now).2 = true ↔
        (g.connection_times.filter
          (fun y => decide (now - y < g.window_duration))).length < g.max_per_window) ∧
      ((g.record_new_connection now).2 = true →
        (g.record_new_connection now).1.connection_times
          = g.connection_times.filter
              (fun y => decide (now - y < g.window_duration)) ++ [now]) ∧
      ((g.record_new_connection now).2 = false →
        (g.record_new_connection now).1.connection_times
          = g.connection_times.filter
              (fun y => decide (now - y < g.window_duration)))) ∧
    (∀ (w cap a : Nat) (ts : List Nat),
      List.Pairwise (· ≤ ·) ts →
      (grlSuccessTimes (GlobalConnectionRateLimiter.with_window cap w) ts).countP
        (fun x => decide (a ≤ x ∧ x < a + w)) ≤ cap) ∧
    (∀ (g : GlobalConnectionRateLimiter) (now x : Nat) (rest : List Nat),
      g.connection_times = x :: rest →
      g.connection_times.length = g.max_per_window →
      g.window_duration ≤ now - x →
      (∀ y ∈ rest, now - y < g.window_duration) →
      (g.record_new_connection now).2 = true ∧
      (g.record_new_connection now).1.connection_times.length = g.max_per_window) := by
  refine ⟨fun g now => ?_, fun w cap a ts hsort => ?_,
    fun g now x rest h1 h2 h3 h4 => grl_slot_reopen g now x rest h1 h2 h3 h4⟩
  · rcases grl_record_step g now with ⟨hlt, hrec⟩ | ⟨hge, hrec⟩
    · refine ⟨?_, ?_, ?_⟩
      · rw [hrec]; simpa using hlt
      · intro _; rw [hrec]
      · intro hfalse; rw [hrec] at hfalse; simp at hfalse
    · refine ⟨?_, ?_, ?_⟩
      · rw [hrec]; simp; omega
      · intro htrue; rw [hrec] at htrue; simp at htrue
      · intro _; rw [hrec]
  · have h := grl_span_bound w cap a ts (GlobalConnectionRateLimiter.with_window cap w)
      rfl rfl hsort
      (by intro y hy; simp [GlobalConnectionRateLimiter.with_window] at hy)
      (by simp [GlobalConnectionRateLimiter.with_window])
    simpa [GlobalConnectionRateLimiter.with_window] using h

/-- C6 witness: the admit-iff at a fresh cap-3 / 100 ns-window limiter,
the span bound on the trace `[0, 10, 20, 30]`, and the slot-reopening
step on a full window `[0, 50, 60]` probed at instant 100. -/
theorem C6_witness :
    (((GlobalConnectionRateLimiter.with_window 3 100).record_new_connection 0).2 = true ↔
      ((GlobalConnectionRateLimiter.with_window 3 100).connection_times.filter
        (fun y => decide (0 - y <
          (GlobalConnectionRateLimiter.with_window 3 100).window_duration))).length
        < (GlobalConnectionRateLimiter.with_window 3 100).max_per_window) ∧
    ((grlSuccessTimes (GlobalConnectionRateLimiter.with_window 3 100) [0, 10, 20, 30]).countP
      (fun x => decide (0 ≤ x ∧ x < 0 + 100)) ≤ 3) ∧
    (((GlobalConnectionRateLimiter.mk [0, 50, 60] 3 100).record_new_connection 100).2
        = true ∧
      ((GlobalConnectionRateLimiter.mk [0, 50, 60] 3 100).record_new_connection
        100).1.connection_times.length
        = (GlobalConnectionRateLimiter.mk [0, 50, 60] 3 100).max_per_window) :=
  ⟨(C6_sliding_window.1 (GlobalConnectionRateLimiter.with_window 3 100) 0).1,
    C6_sliding_window.2.1 100 3 0 [0, 10, 20, 30] (by decide),
    C6_sliding_window.2.2 (GlobalConnectionRateLimiter.mk [0, 50, 60] 3 100) 100 0
      [50, 60] rfl (by decide) (by decide) (by decide)⟩

end Security
